import Mathlib

/-!
Shallow embedding of the search-orchestration core of the
youtube-influencer-finder repository, together with proofs about it.

The embedded code is the frontend `YouTubeService`
(src/frontend/src/services/openai.service.ts): relevance scoring,
keyword prioritization, the per-keyword search / merge / filter / sort /
truncate pipeline of `searchInfluencers`, its localStorage-backed TTL
cache, and `SettingsService.switchToNextKey` of the multi-key settings
variant (src/unnamed/part_012).

Modelling conventions:
- JS numbers are modelled as `ℚ` (exact arithmetic); integer-valued
  results (`Math.round`, counts, ids) as `ℤ`/`ℕ`.
- JS strings are Lean `String`; `toLowerCase`, `includes`, `startsWith`,
  `split(' ')` are implemented below on lists of characters.
- Network calls are parameters: each query variant is mapped by an
  oracle to the data (or HTTP error) the platform returns for it.
- `localStorage` is passed explicitly as an association list.
-/

namespace YTFinder

/-- JS `String.prototype.toLowerCase`, character by character
(structural, so that concrete runs reduce in the kernel). -/
def strLower (s : String) : String := String.mk (s.toList.map Char.toLower)

/-- Does the first character list lead (begin) the second one? -/
def listLeads : List Char → List Char → Bool
  | [], _ => true
  | _ :: _, [] => false
  | a :: as, b :: bs => a == b && listLeads as bs

/-- Does `pat` occur contiguously within `s`? -/
def listWithin : List Char → List Char → Bool
  | pat, [] => listLeads pat []
  | pat, c :: t => listLeads pat (c :: t) || listWithin pat t

/-- JS `s.includes(pat)`: substring containment. -/
def strIncludes (s pat : String) : Bool := listWithin pat.toList s.toList

/-- JS `s.startsWith(pat)`. -/
def strStarts (s pat : String) : Bool := listLeads pat.toList s.toList

/-- Split a character list at every separator character. -/
def splitChars (p : Char → Bool) : List Char → List (List Char)
  | [] => [[]]
  | c :: cs =>
    let r := splitChars p cs
    if p c then [] :: r
    else
      match r with
      | [] => [[c]]
      | w :: ws => (c :: w) :: ws

/-- JS `s.split(' ')`: split at every single space, keeping empty
tokens, as the non-regex string split does. -/
def jsSplitSpace (s : String) : List String :=
  (splitChars (fun c => c == ' ') s.toList).map (fun cs => String.mk cs)

/-- An exact, unnormalized fraction: the model of a JS number in the
scoring arithmetic. Keeping numerator and denominator separate (no gcd
normalization) makes every concrete run reduce inside the kernel; the
interpretation into `ℚ` is `Frac.toRat`, and every fraction the scoring
code builds has a positive denominator. -/
structure Frac where
  num : Int
  den : Int
deriving DecidableEq

instance (n : Nat) : OfNat Frac n := ⟨⟨(n : Int), 1⟩⟩

instance : NatCast Frac := ⟨fun n => ⟨(n : Int), 1⟩⟩

/-- Exact fraction addition. -/
def Frac.add (f g : Frac) : Frac := ⟨f.num * g.den + g.num * f.den, f.den * g.den⟩

/-- Exact fraction multiplication. -/
def Frac.mul (f g : Frac) : Frac := ⟨f.num * g.num, f.den * g.den⟩

/-- Exact fraction division. -/
def Frac.div (f g : Frac) : Frac := ⟨f.num * g.den, f.den * g.num⟩

/-- Comparison by cross multiplication (sound for positive
denominators, the only ones the scoring code produces). -/
def Frac.leB (f g : Frac) : Bool := decide (f.num * g.den ≤ g.num * f.den)

/-- JS `Math.min` on exact fractions. -/
def Frac.minF (f g : Frac) : Frac := if f.leB g then f else g

instance : Add Frac := ⟨Frac.add⟩

instance : Mul Frac := ⟨Frac.mul⟩

instance : Div Frac := ⟨Frac.div⟩

instance : Min Frac := ⟨Frac.minF⟩

/-- Floor of an exact fraction (integer division; for positive
denominators this is the mathematical floor, see `Frac.floorF_eq`). -/
def Frac.floorF (f : Frac) : Int := f.num / f.den

/-- The rational value of an exact fraction. -/
def Frac.toRat (f : Frac) : ℚ := (f.num : ℚ) / (f.den : ℚ)

/-- Nonnegative value with positive denominator: the well-formedness
every scoring term maintains. -/
def Frac.NN (f : Frac) : Prop := 0 ≤ f.num ∧ 0 < f.den

/-- JS `Math.round` on an exact fraction: floor of `q + 1/2`. -/
def jsRound (q : Frac) : ℤ := Frac.floorF (q + { num := 1, den := 2 })

/-- JS `x || d` for an optional string field: `undefined` and the empty
string are falsy and give the default. -/
def jsOr (x : Option String) (d : String) : String :=
  match x with
  | some s => if s = "" then d else s
  | none => d

/-- A recent/top video of a channel (`RecentVideo` in the source types). -/
structure RecentVideo where
  videoId : String
  title : String
  publishedAt : String
  viewCount : Nat
  thumbnailUrl : String
deriving DecidableEq

/-- A channel result (`InfluencerResult` in the source types).
`relevanceScore` is integral: the source rounds it before storing. -/
structure InfluencerResult where
  channelId : String
  channelTitle : String
  channelUrl : String
  thumbnailUrl : String
  subscriberCount : Nat
  viewCount : Nat
  videoCount : Nat
  country : String
  recentVideos : List RecentVideo
  relevanceScore : Int
deriving DecidableEq

/-- Title part of `calculateRelevanceScore`: +30 when the title contains
the keyword, else the matched-word ratio times 20. -/
def titleRelevance (titleLower keywordLower : String) : Frac :=
  if strIncludes titleLower keywordLower then 30
  else
    let keywordWords := jsSplitSpace keywordLower
    let matchingWords := keywordWords.filter (fun word => strIncludes titleLower word)
    ((matchingWords.length : Frac) / (keywordWords.length : Frac)) * 20

/-- Description part of `calculateRelevanceScore`: +20 on containment,
else the matched-word ratio times 15. -/
def descriptionRelevance (descriptionLower keywordLower : String) : Frac :=
  if strIncludes descriptionLower keywordLower then 20
  else
    let keywordWords := jsSplitSpace keywordLower
    let matchingWords := keywordWords.filter (fun word => strIncludes descriptionLower word)
    ((matchingWords.length : Frac) / (keywordWords.length : Frac)) * 15

/-- Recent-video part of `calculateRelevanceScore`: 8 per video whose
title contains the keyword, capped at 25. -/
def videoKeywordRelevance (recentVideos : List RecentVideo) (keywordLower : String) : Frac :=
  min 25 (8 * ((recentVideos.filter
    (fun video => strIncludes (strLower video.title) keywordLower)).length : Frac))

/-- Subscriber-count tier bonus of `calculateRelevanceScore`. -/
def subscriberBonus (subscriberCount : Nat) : Frac :=
  if subscriberCount > 1000000 then 25
  else if subscriberCount > 100000 then 20
  else if subscriberCount > 10000 then 15
  else if subscriberCount > 1000 then 10
  else 5

/-- Original-topic bonus of `calculateRelevanceScore` (frontend variant):
+20 when the channel title contains the whole topic, else up to 15 by
matched significant topic words; plus up to 10 for videos whose titles
contain the topic. Absent topic contributes 0. -/
def originalTopicBonus (titleLower : String) (recentVideos : List RecentVideo)
    (originalTopic : Option String) : Frac :=
  match originalTopic with
  | none => 0
  | some topic =>
    let originalTopicLower := strLower topic
    let originalWords := (jsSplitSpace originalTopicLower).filter (fun word => word.length > 2)
    let titleBonus : Frac :=
      if strIncludes titleLower originalTopicLower then 20
      else
        let wordMatches :=
          (originalWords.filter (fun word => strIncludes titleLower word)).length
        if wordMatches > 0 then
          min 15 (((wordMatches : Frac) / (originalWords.length : Frac)) * 15)
        else 0
    let videoTopicMatches :=
      (recentVideos.filter
        (fun video => strIncludes (strLower video.title) originalTopicLower)).length
    let videoBonus : Frac :=
      if videoTopicMatches > 0 then min 10 ((videoTopicMatches : Frac) * 3) else 0
    titleBonus + videoBonus

/-- `YouTubeService.calculateRelevanceScore`
(src/frontend/src/services/openai.service.ts:956): sum of the four base
parts plus the optional original-topic bonus, rounded and clamped to 120. -/
def calculateRelevanceScore (channelTitle channelDescription searchKeyword : String)
    (subscriberCount : Nat) (recentVideos : List RecentVideo)
    (originalTopic : Option String) : ℤ :=
  let titleLower := strLower channelTitle
  let keywordLower := strLower searchKeyword
  let score : Frac :=
    titleRelevance titleLower keywordLower
      + descriptionRelevance (strLower channelDescription) keywordLower
      + videoKeywordRelevance recentVideos keywordLower
      + subscriberBonus subscriberCount
      + originalTopicBonus titleLower recentVideos originalTopic
  min 120 (jsRound score)

/-- The review-intent words of `calculateVideoRelevanceScore`. -/
def relevantWords : List String :=
  ["review", "test", "unboxing", "setup", "comparison", "vs", "tutorial",
   "guide", "hands-on", "first look", "impressions"]

/-- Separator class of the title-word split regex in
`calculateVideoRelevanceScore` (whitespace and `-_()[]`). -/
def isTitleSeparator (c : Char) : Bool :=
  c.isWhitespace || c == '-' || c == '_' || c == '(' || c == ')' || c == '[' || c == ']'

/-- Title words of `calculateVideoRelevanceScore` before length
filtering. The source splits on a `+`-quantified character class, which
only differs from the per-character split by empty tokens; the caller
filters tokens by length afterwards, so the difference is immaterial. -/
def splitTitleWords (s : String) : List String :=
  (splitChars isTitleSeparator s.toList).map (fun cs => String.mk cs)

/-- Weighted word-match part of `calculateVideoRelevanceScore`:
`exactRatio * 0.8 + partialRatio * 0.3`, each ratio counting per-word
matches over `Math.max(keywordWords.length, 1)`. -/
def videoMatchBase (titleLower keywordLower : String) : Frac :=
  let keywordWords := (jsSplitSpace keywordLower).filter (fun word => word.length > 2)
  let titleWords := (splitTitleWords titleLower).filter (fun word => word.length > 1)
  let exactMatchCount :=
    (keywordWords.map (fun kw => (titleWords.filter (fun tw => tw == kw)).length)).sum
  let partialMatchCount :=
    (keywordWords.map (fun kw =>
      (titleWords.filter (fun tw =>
        !(tw == kw) && (strIncludes tw kw || strIncludes kw tw))).length)).sum
  let exactPart : Frac := (exactMatchCount : Frac) / ((max keywordWords.length 1 : Nat) : Frac)
  let partialPart : Frac := (partialMatchCount : Frac) / ((max keywordWords.length 1 : Nat) : Frac)
  exactPart * (8 / 10) + partialPart * (3 / 10)

/-- Word-match score of `calculateVideoRelevanceScore` before the final
clamp: the weighted match part plus the review-word bonus and the
title-start bonus. -/
def videoWordScore (titleLower keywordLower : String) : Frac :=
  let keywordWords := (jsSplitSpace keywordLower).filter (fun word => word.length > 2)
  let score0 := videoMatchBase titleLower keywordLower
  let score1 :=
    if relevantWords.any (fun word => strIncludes titleLower word) then score0 + 15 / 100
    else score0
  let titleStart := String.mk (titleLower.toList.take 50)
  if keywordWords.any (fun word => strIncludes titleStart word) then score1 + 1 / 10
  else score1

/-- `YouTubeService.calculateVideoRelevanceScore`
(src/frontend/src/services/openai.service.ts:1044): 1.0 on exact
containment, else the word-match score clamped to 1. -/
def calculateVideoRelevanceScore (videoTitle searchKeyword : String) : Frac :=
  let titleLower := strLower videoTitle
  let keywordLower := strLower searchKeyword
  if strIncludes titleLower keywordLower then 1
  else min 1 (videoWordScore titleLower keywordLower)

/-- Stable insertion of one element under a JS comparator (negative or
zero keeps the inserted element in front). -/
def jsInsertSorted (cmp : α → α → Int) (x : α) : List α → List α
  | [] => [x]
  | y :: ys => if cmp x y ≤ 0 then x :: y :: ys else y :: jsInsertSorted cmp x ys

/-- JS `Array.prototype.sort(cmp)` modelled as stable insertion sort.
For an inconsistent comparator ECMAScript leaves the order
implementation-defined; the theorems below that depend on an order either
hold for every permutation or are stated about this model. -/
def jsSortBy (cmp : α → α → Int) (l : List α) : List α :=
  List.foldr (jsInsertSorted cmp) [] l

/-- `YouTubeService.prioritizeKeywords`
(src/frontend/src/services/openai.service.ts:1412): score each keyword
against the original topic (+100 containment, +20 per significant topic
word, +50 when it starts with the topic) and sort descending. -/
def prioritizeKeywords (keywords : List String) (originalTopic : Option String) : List String :=
  match originalTopic with
  | none => keywords
  | some topic =>
    let topicLower := strLower topic
    let topicWords := (jsSplitSpace topicLower).filter (fun word => word.length > 2)
    let keywordScores := keywords.map (fun keyword =>
      let keywordLower := strLower keyword
      let score : Int :=
        (if strIncludes keywordLower topicLower then 100 else 0)
          + 20 * ((topicWords.filter (fun word => strIncludes keywordLower word)).length : Int)
          + (if strStarts keywordLower topicLower then 50 else 0)
      (keyword, score))
    (jsSortBy (fun a b => b.2 - a.2) keywordScores).map (fun p => p.1)

/-- Raw `snippet` of a channel item from the channels endpoint; absent
fields are `none` (the source reads them with `?.` and `||` defaults). -/
structure RawSnippet where
  title : Option String
  description : Option String
  country : Option String
  thumbnailUrl : Option String
deriving DecidableEq

/-- Raw `statistics` of a channel item. The source stores decimal
strings and applies `parseInt(x || '0')`; the parsed values are
modelled directly, with `none` for a missing field. -/
structure RawStats where
  subscriberCount : Option Nat
  viewCount : Option Nat
  videoCount : Option Nat
deriving DecidableEq

/-- A raw channel item of the channels endpoint response. -/
structure RawChannel where
  id : String
  snippet : Option RawSnippet
  statistics : Option RawStats
deriving DecidableEq

/-- `YouTubeService.processChannel`
(src/frontend/src/services/openai.service.ts:795): parse the raw
channel, discard it when snippet/statistics are missing or the
subscriber count is below 100, and build the result record. The
network call `getTopViewedVideos` is supplied as `topVideos` by the
environment (its internal ranking does not affect the claims). -/
def processChannel (channel : RawChannel) (searchKeyword : String)
    (originalTopic : Option String) (topVideos : List RecentVideo) : Option InfluencerResult :=
  match channel.snippet, channel.statistics with
  | some snippet, some statistics =>
    let subscriberCount := statistics.subscriberCount.getD 0
    let viewCount := statistics.viewCount.getD 0
    let videoCount := statistics.videoCount.getD 0
    if subscriberCount < 100 then none
    else
      let recentVideos := topVideos
      let relevanceScore := calculateRelevanceScore (jsOr snippet.title "")
        (jsOr snippet.description "") searchKeyword subscriberCount recentVideos originalTopic
      some {
        channelId := channel.id
        channelTitle := jsOr snippet.title "Unknown Channel"
        channelUrl := "https://www.youtube.com/channel/" ++ channel.id
        thumbnailUrl := jsOr snippet.thumbnailUrl ""
        subscriberCount := subscriberCount
        viewCount := viewCount
        videoCount := videoCount
        country := jsOr snippet.country "Unknown"
        recentVideos := recentVideos
        relevanceScore := relevanceScore }
  | _, _ => none

/-- One HTTP response of the platform: `ok` with an optional `items`
array, or an HTTP error status. -/
inductive ApiOutcome (α : Type) where
  | ok (items : Option (List α))
  | httpError (status : Nat)

/-- The `snippet` of one search-endpoint item. -/
structure SearchSnippet where
  channelId : Option String
deriving DecidableEq

/-- One item of the search endpoint response. -/
structure SearchItem where
  snippet : Option SearchSnippet
deriving DecidableEq

/-- What the platform returns for one query variant: the text-search
response, the channel-details response, and the already-ranked top
videos per channel id (the `getTopViewedVideos` calls). -/
structure VariantData where
  searchOutcome : ApiOutcome SearchItem
  channelsOutcome : ApiOutcome RawChannel
  topVideosFor : String → List RecentVideo

/-- JS `[...new Set(xs)]`: deduplicate keeping the first occurrence. -/
def dedupKeepFirst (l : List String) : List String :=
  List.foldl (fun acc x => if acc.contains x then acc else acc ++ [x]) [] l

/-- `YouTubeService.searchByKeyword`
(src/frontend/src/services/openai.service.ts:615): one query variant.
Returns the processed channels together with the number of HTTP requests
issued (search, and channel details when reached). Every failure path —
including the typed errors the source constructs for 403/400 responses —
is caught by the function's own trailing `catch`, which returns `[]`. -/
def searchByKeyword (keyword region : String) (maxResults : Nat)
    (originalTopic : Option String) (d : VariantData) : List InfluencerResult × Nat :=
  match d.searchOutcome with
  | ApiOutcome.httpError _ => ([], 1)
  | ApiOutcome.ok none => ([], 1)
  | ApiOutcome.ok (some items) =>
    let channelIds := dedupKeepFirst
      ((items.filterMap (fun item => item.snippet.bind (fun s => s.channelId))).filter
        (fun s => s != ""))
    if channelIds.isEmpty then ([], 1)
    else
      match d.channelsOutcome with
      | ApiOutcome.httpError _ => ([], 2)
      | ApiOutcome.ok none => ([], 2)
      | ApiOutcome.ok (some chans) =>
        ((chans.filterMap (fun c =>
          processChannel c keyword originalTopic (d.topVideosFor c.id))), 2)

/-- The five query variants `searchInfluencers` derives from one keyword. -/
def searchModes (keyword : String) : List String :=
  [keyword, keyword ++ " review", keyword ++ " unboxing", keyword ++ " test",
   keyword ++ " hands on"]

/-- The merge update of `searchInfluencers` for a rediscovered channel:
`existing.relevanceScore = Math.min(100, existing.relevanceScore + 15)`. -/
def bumpScore (r : InfluencerResult) : InfluencerResult :=
  { r with relevanceScore := min 100 (r.relevanceScore + 15) }

/-- JS `Map.get` on the modelled insertion-ordered association list. -/
def mapLookup : List (String × InfluencerResult) → String → Option InfluencerResult
  | [], _ => none
  | p :: t, k => if p.1 == k then some p.2 else mapLookup t k

/-- The `allChannels` map of `searchInfluencers`
(src/frontend/src/services/openai.service.ts:569): a JS `Map` in
insertion order, keyed by `channelId`; a rediscovery bumps the stored
score instead of overwriting the record. -/
def mergeChannel (m : List (String × InfluencerResult)) (channel : InfluencerResult) :
    List (String × InfluencerResult) :=
  if m.any (fun p => p.1 == channel.channelId) then
    m.map (fun p => if p.1 == channel.channelId then (p.1, bumpScore p.2) else p)
  else
    m ++ [(channel.channelId, channel)]

/-- Invariant of the `allChannels` map: its keys are pairwise distinct
and every stored record carries its own key as `channelId`. -/
def mergeInv (m : List (String × InfluencerResult)) : Prop :=
  (m.map Prod.fst).Nodup ∧ ∀ p ∈ m, (p.2).channelId = p.1

/-- The fan-out loop of `searchInfluencers` (lines 553-582): for each
processed keyword, issue the five query variants; merge every returned
channel into the keyed map; accumulate the HTTP request count. -/
def runVariants (region : String) (maxResults : Nat) (originalTopic : Option String)
    (platform : String → VariantData) (keywords : List String) :
    List (String × InfluencerResult) × Nat :=
  List.foldl (fun acc keyword =>
      List.foldl (fun acc2 searchQuery =>
          let r := searchByKeyword searchQuery region (min 10 maxResults) originalTopic
            (platform searchQuery)
          (List.foldl mergeChannel acc2.1 r.1, acc2.2 + r.2))
        acc (searchModes keyword))
    ([], 0) keywords

/-- The filter step of `searchInfluencers` (lines 584-590). -/
def filterChannels (minSubscribers minViews : Nat) (l : List InfluencerResult) :
    List InfluencerResult :=
  l.filter (fun channel =>
    decide (minSubscribers ≤ channel.subscriberCount)
      && (channel.recentVideos.isEmpty
        || channel.recentVideos.any (fun video => decide (minViews ≤ video.viewCount))))

/-- The sort comparator of `searchInfluencers` (lines 594-600): score
descending, except that a pair less than 5 points apart is compared by
subscriber count descending. -/
def channelCompare (a b : InfluencerResult) : Int :=
  let relevanceDiff := b.relevanceScore - a.relevanceScore
  if relevanceDiff.natAbs < 5 then (b.subscriberCount : Int) - (a.subscriberCount : Int)
  else relevanceDiff

/-- The search filters as the caller passes them; `none` selects the
destructuring default (`US`, 1000, 10000, 50). -/
structure SearchFiltersIn where
  region : Option String
  minSubscribers : Option Nat
  minViews : Option Nat
  maxResults : Option Nat
deriving DecidableEq

/-- A cache key. The source serializes `{prefix, keywords, filters,
apiKeyHash}` to JSON and hashes the string (`generateCacheKey`); the key
is modelled as the parameter tuple itself, which preserves the only
property the claims use: equal inputs give equal keys. -/
structure CacheKey where
  keyTag : String
  keywords : List String
  filters : SearchFiltersIn
  apiKeyHash : String
deriving DecidableEq

/-- One cached value with its absolute expiry time in ms. -/
structure CacheEntry where
  data : List InfluencerResult
  expiry : Nat
deriving DecidableEq

/-- `YouTubeService.getFromCache`
(src/frontend/src/services/openai.service.ts:1384): a stored entry is a
hit unless `Date.now() > expiry`. (The source also deletes an expired
entry; dropping that removal does not change any read result.) -/
def getFromCache (cache : List (CacheKey × CacheEntry)) (key : CacheKey) (now : Nat) :
    Option (List InfluencerResult) :=
  match cache.lookup key with
  | none => none
  | some e => if now > e.expiry then none else some e.data

/-- `YouTubeService.setCache` (line 1402): store with expiry
`Date.now() + ttlMs`, overwriting any entry under the same key. -/
def setCache (cache : List (CacheKey × CacheEntry)) (key : CacheKey)
    (data : List InfluencerResult) (ttlMs now : Nat) : List (CacheKey × CacheEntry) :=
  (key, { data := data, expiry := now + ttlMs }) :: cache.filter (fun p => !(p.1 == key))

/-- `YouTubeService.getApiKeyHash` (line 1379). JS
`apiKey.substring(-4)` clamps the negative start to 0 and returns the
whole string, so the "hash" is the first 8 characters, `_`, and the
full key. -/
def getApiKeyHash (apiKey : String) : String :=
  String.mk (apiKey.toList.take 8) ++ "_" ++ apiKey

/-- The cache key `searchInfluencers` derives for one invocation. -/
def searchCacheKey (apiKey : String) (keywords : List String) (filters : SearchFiltersIn) :
    CacheKey :=
  { keyTag := "search", keywords := keywords, filters := filters,
    apiKeyHash := getApiKeyHash apiKey }

/-- `YouTubeService.searchInfluencers`
(src/frontend/src/services/openai.service.ts:518): cache lookup, keyword
prioritization, fan-out over the five query variants of the first
keyword, merge, filter, sort, truncate, cache store. Returns the result
(`Except` mirrors the `Candidate[] | thrown error` contract; no path of
the body throws, because `searchByKeyword` absorbs every per-variant
failure), the updated cache, and the number of upstream HTTP requests
issued. -/
def searchInfluencers (apiKey : String) (keywords : List String) (filters : SearchFiltersIn)
    (originalTopic : Option String) (platform : String → VariantData)
    (cache : List (CacheKey × CacheEntry)) (now : Nat) :
    Except String (List InfluencerResult) × List (CacheKey × CacheEntry) × Nat :=
  let region := filters.region.getD "US"
  let minSubscribers := filters.minSubscribers.getD 1000
  let minViews := filters.minViews.getD 10000
  let maxResults := filters.maxResults.getD 50
  let cacheKey := searchCacheKey apiKey keywords filters
  match getFromCache cache cacheKey now with
  | some cachedResult => (Except.ok cachedResult, cache, 0)
  | none =>
    let prioritizedKeywords := prioritizeKeywords keywords originalTopic
    let merged := runVariants region maxResults originalTopic platform
      (prioritizedKeywords.take 1)
    let results := (jsSortBy channelCompare
      (filterChannels minSubscribers minViews (merged.1.map (fun p => p.2)))).take maxResults
    (Except.ok results, setCache cache cacheKey results (30 * 60 * 1000) now, merged.2)

/-- The result list of `searchInfluencers` when it returns normally
(the model never reaches the source's rethrow path). -/
def searchResultsOk (apiKey : String) (keywords : List String) (filters : SearchFiltersIn)
    (originalTopic : Option String) (platform : String → VariantData)
    (cache : List (CacheKey × CacheEntry)) (now : Nat) : List InfluencerResult :=
  match (searchInfluencers apiKey keywords filters originalTopic platform cache now).1 with
  | Except.ok l => l
  | Except.error _ => []

/-- Status of one API credential (src/unnamed/part_012). -/
inductive KeyStatus where
  | active
  | exhausted
  | error
deriving DecidableEq

/-- One stored YouTube API key of the multi-key settings variant. -/
structure YouTubeApiKey where
  id : String
  name : String
  key : String
  status : KeyStatus
  quotaUsed : Nat
  quotaLimit : Nat
  lastError : Option String
  lastUsed : Option String
deriving DecidableEq

/-- The settings state of src/unnamed/part_012. -/
structure AppSettings where
  youtubeApiKeys : List YouTubeApiKey
  currentKeyIndex : Nat
deriving DecidableEq

/-- The `while (attempts < n)` scan of `switchToNextKey`: walk the
indices cyclically, returning the first index holding an active key,
with one attempt per pool slot. -/
def scanNextActive (keys : List YouTubeApiKey) (n : Nat) : Nat → Nat → Option Nat
  | _, 0 => none
  | nextIndex, Nat.succ fuel =>
    match keys[nextIndex]? with
    | some k =>
      if k.status = KeyStatus.active then some nextIndex
      else scanNextActive keys n ((nextIndex + 1) % n) fuel
    | none => scanNextActive keys n ((nextIndex + 1) % n) fuel

/-- `SettingsService.switchToNextKey` (src/unnamed/part_012:161):
refuse when at most one key in the whole pool is active, else scan
cyclically from the slot after the current one and move the cursor to
the first active key found. Persistence through `saveSettings` is
modelled by returning the updated state. -/
def switchToNextKey (settings : AppSettings) : Bool × AppSettings :=
  let activeKeys := settings.youtubeApiKeys.filter (fun k => k.status == KeyStatus.active)
  if activeKeys.length ≤ 1 then (false, settings)
  else
    let n := settings.youtubeApiKeys.length
    match scanNextActive settings.youtubeApiKeys n ((settings.currentKeyIndex + 1) % n) n with
    | some i => (true, { settings with currentKeyIndex := i })
    | none => (false, settings)

/-- Claim-side predicate (wording of C5): some credential other than the
current one has status active. -/
def hasOtherActive (s : AppSettings) : Bool :=
  s.youtubeApiKeys.enum.any (fun p =>
    (p.1 != s.currentKeyIndex) && (p.2.status == KeyStatus.active))

/-- Pairwise check of a binary Bool relation along a list. -/
def pairwiseB (rel : α → α → Bool) : List α → Bool
  | [] => true
  | x :: xs => xs.all (rel x) && pairwiseB rel xs

/-- Claim-side predicate (wording of C7): every earlier entry beats
every later one by relevance score descending, except that a pair less
than 5 points apart is ordered by subscriber count descending. -/
def specOrderingOK (l : List InfluencerResult) : Bool :=
  pairwiseB (fun a b =>
    if (a.relevanceScore - b.relevanceScore).natAbs < 5 then
      decide (b.subscriberCount ≤ a.subscriberCount)
    else
      decide (b.relevanceScore ≤ a.relevanceScore)) l

/-- A concrete recent video used by the concrete runs below. -/
def exVideo (title : String) (views : Nat) : RecentVideo :=
  { videoId := "v", title := title, publishedAt := "", viewCount := views, thumbnailUrl := "" }

/-- Concrete channel item: base score 84 for keyword `"a b c"`. -/
def rawA : RawChannel :=
  { id := "UCA",
    snippet := some { title := some "a b c", description := some "a",
                      country := none, thumbnailUrl := none },
    statistics := some { subscriberCount := some 2000000, viewCount := some 1,
                         videoCount := some 1 } }

/-- Concrete channel item: base score 81 for keyword `"a b c"`. -/
def rawB : RawChannel :=
  { id := "UCB",
    snippet := some { title := some "a b c", description := some "a b",
                      country := none, thumbnailUrl := none },
    statistics := some { subscriberCount := some 3000000, viewCount := some 1,
                         videoCount := some 1 } }

/-- Concrete channel item: base score 79 for keyword `"a b c"`. -/
def rawC : RawChannel :=
  { id := "UCC",
    snippet := some { title := some "a b c", description := none,
                      country := none, thumbnailUrl := none },
    statistics := some { subscriberCount := some 4000000, viewCount := some 1,
                         videoCount := some 1 } }

/-- Top videos per channel for the concrete runs. -/
def exTopVideos (channelId : String) : List RecentVideo :=
  if channelId = "UCA" then [exVideo "a b c" 20000, exVideo "a b c" 20000, exVideo "a b c" 20000]
  else if channelId = "UCB" then [exVideo "a b c" 20000, exVideo "a b c" 20000]
  else [exVideo "a b c" 20000, exVideo "a b c" 20000, exVideo "a b c" 20000]

/-- A variant response carrying the three concrete channels. -/
def exVariantFull : VariantData :=
  { searchOutcome := ApiOutcome.ok (some
      [{ snippet := some { channelId := some "UCA" } },
       { snippet := some { channelId := some "UCB" } },
       { snippet := some { channelId := some "UCC" } }]),
    channelsOutcome := ApiOutcome.ok (some [rawA, rawB, rawC]),
    topVideosFor := exTopVideos }

/-- A variant response with no items. -/
def exVariantEmpty : VariantData :=
  { searchOutcome := ApiOutcome.ok none,
    channelsOutcome := ApiOutcome.ok none,
    topVideosFor := fun _ => [] }

/-- Concrete platform: the first two query variants of keyword
`"a b c"` both return the three channels, the rest return nothing, so
each channel is rediscovered once and its score is bumped by the merge. -/
def exPlatform (q : String) : VariantData :=
  if q = "a b c" || q = "a b c review" then exVariantFull else exVariantEmpty

/-- Filters with every field absent: the destructuring defaults apply. -/
def exFilters : SearchFiltersIn :=
  { region := none, minSubscribers := none, minViews := none, maxResults := none }

/-- A platform on which every HTTP request fails with status 403
(the `keyInvalid` / invalid-credential classification of the source). -/
def invalidCredentialPlatform (_q : String) : VariantData :=
  { searchOutcome := ApiOutcome.httpError 403,
    channelsOutcome := ApiOutcome.httpError 403,
    topVideosFor := fun _ => [] }

/-- Three videos whose titles contain both the keyword `"a"` and the
topic `"b"`. -/
def exVideos120 : List RecentVideo :=
  [exVideo "a b" 1, exVideo "a b" 1, exVideo "a b" 1]

/-- A channel whose relevance score is computed by the source's scoring
function and reaches the 120-point cap (keyword `"a"`, topic `"b"`). -/
def exChannel120 : InfluencerResult :=
  { channelId := "UC1", channelTitle := "a b", channelUrl := "", thumbnailUrl := "",
    subscriberCount := 2000000, viewCount := 0, videoCount := 0, country := "",
    recentVideos := exVideos120,
    relevanceScore := calculateRelevanceScore "a b" "a" "a" 2000000 exVideos120 (some "b") }

/-- A stored credential for the concrete pool states. -/
def mkKey (idT : String) (st : KeyStatus) : YouTubeApiKey :=
  { id := idT, name := idT, key := idT, status := st, quotaUsed := 0, quotaLimit := 10000,
    lastError := none, lastUsed := none }

/-- Pool state: the current key is exhausted and exactly one other key
is active. -/
def exSettingsOneActive : AppSettings :=
  { youtubeApiKeys := [mkKey "k0" KeyStatus.exhausted, mkKey "k1" KeyStatus.active],
    currentKeyIndex := 0 }

/-- Pool state with two active keys (the current one and another). -/
def exSettingsTwoActive : AppSettings :=
  { youtubeApiKeys := [mkKey "k0" KeyStatus.active, mkKey "k1" KeyStatus.active,
                       mkKey "k2" KeyStatus.exhausted],
    currentKeyIndex := 0 }

/-- All ways to insert an element into a list. -/
def insertEverywhere (x : α) : List α → List (List α)
  | [] => [[x]]
  | y :: ys => (x :: y :: ys) :: (insertEverywhere x ys).map (fun l => y :: l)

/-- A structural enumeration of all permutations of a list
(complete by `allPerms_complete`). -/
def allPerms : List α → List (List α)
  | [] => [[]]
  | x :: xs => ((allPerms xs).map (insertEverywhere x)).join

/-- The first channel record of the concrete run `exPlatform` produces:
base score 84 bumped once to 99. -/
def exResultA : InfluencerResult :=
  { channelId := "UCA", channelTitle := "a b c",
    channelUrl := "https://www.youtube.com/channel/UCA", thumbnailUrl := "",
    subscriberCount := 2000000, viewCount := 1, videoCount := 1, country := "Unknown",
    recentVideos := exTopVideos "UCA", relevanceScore := 99 }

/-! Theorems. -/

/-- Structural value of the numerator of a numeral fraction. -/
theorem Frac.num_ofNat (n : Nat) : (OfNat.ofNat n : Frac).num = (n : Int) := rfl

/-- Structural value of the denominator of a numeral fraction. -/
theorem Frac.den_ofNat (n : Nat) : (OfNat.ofNat n : Frac).den = 1 := rfl

/-- Structural value of the numerator of a cast count. -/
theorem Frac.num_natCast (n : Nat) : ((n : Frac)).num = (n : Int) := rfl

/-- Structural value of the denominator of a cast count. -/
theorem Frac.den_natCast (n : Nat) : ((n : Frac)).den = 1 := rfl

/-- Denominators multiply under addition. -/
theorem Frac.den_add (f g : Frac) : (f + g).den = f.den * g.den := rfl

/-- Denominators multiply under multiplication. -/
theorem Frac.den_mul (f g : Frac) : (f * g).den = f.den * g.den := rfl

/-- The denominator of a quotient is the left denominator times the
right numerator. -/
theorem Frac.den_div (f g : Frac) : (f / g).den = f.den * g.num := rfl

/-- The rational value of a numeral fraction. -/
theorem Frac.toRat_ofNat (n : Nat) : (OfNat.ofNat n : Frac).toRat = (n : ℚ) := by
  rw [Frac.toRat, Frac.num_ofNat, Frac.den_ofNat]
  norm_num

/-- The rational value of a cast count. -/
theorem Frac.toRat_natCast (n : Nat) : ((n : Frac)).toRat = (n : ℚ) := by
  rw [Frac.toRat, Frac.num_natCast, Frac.den_natCast]
  norm_num

/-- `toRat` is additive on fractions with positive denominators. -/
theorem Frac.toRat_add {f g : Frac} (hf : 0 < f.den) (hg : 0 < g.den) :
    (f + g).toRat = f.toRat + g.toRat := by
  have hf9 : ((f.den : ℚ)) ≠ 0 := by exact_mod_cast hf.ne'
  have hg9 : ((g.den : ℚ)) ≠ 0 := by exact_mod_cast hg.ne'
  show Frac.toRat ⟨f.num * g.den + g.num * f.den, f.den * g.den⟩ = _
  rw [Frac.toRat, Frac.toRat, Frac.toRat]
  push_cast
  field_simp

/-- `toRat` is multiplicative on fractions with positive denominators. -/
theorem Frac.toRat_mul {f g : Frac} (hf : 0 < f.den) (hg : 0 < g.den) :
    (f * g).toRat = f.toRat * g.toRat := by
  have hf9 : ((f.den : ℚ)) ≠ 0 := by exact_mod_cast hf.ne'
  have hg9 : ((g.den : ℚ)) ≠ 0 := by exact_mod_cast hg.ne'
  show Frac.toRat ⟨f.num * g.num, f.den * g.den⟩ = _
  rw [Frac.toRat, Frac.toRat, Frac.toRat]
  push_cast
  field_simp

/-- `toRat` commutes with division on fractions with positive
denominators (when the divisor is zero both sides are zero). -/
theorem Frac.toRat_div {f g : Frac} (hf : 0 < f.den) (hg : 0 < g.den) :
    (f / g).toRat = f.toRat / g.toRat := by
  have hf9 : ((f.den : ℚ)) ≠ 0 := by exact_mod_cast hf.ne'
  have hg9 : ((g.den : ℚ)) ≠ 0 := by exact_mod_cast hg.ne'
  rcases eq_or_ne g.num 0 with h0 | h0
  · show Frac.toRat ⟨f.num * g.den, f.den * g.num⟩ = _
    rw [Frac.toRat, Frac.toRat, Frac.toRat, h0]
    simp
  · have h9 : ((g.num : ℚ)) ≠ 0 := by exact_mod_cast h0
    show Frac.toRat ⟨f.num * g.den, f.den * g.num⟩ = _
    rw [Frac.toRat, Frac.toRat, Frac.toRat]
    push_cast
    field_simp

/-- `toRat` commutes with the modelled `Math.min` on fractions with
positive denominators. -/
theorem Frac.toRat_min {f g : Frac} (hf : 0 < f.den) (hg : 0 < g.den) :
    (min f g).toRat = min f.toRat g.toRat := by
  have hfq : (0 : ℚ) < (f.den : ℚ) := by exact_mod_cast hf
  have hgq : (0 : ℚ) < (g.den : ℚ) := by exact_mod_cast hg
  have hiff : (f.leB g = true) ↔ f.toRat ≤ g.toRat := by
    rw [Frac.leB, decide_eq_true_eq, Frac.toRat, Frac.toRat, div_le_div_iff hfq hgq]
    constructor <;> intro h <;> exact_mod_cast h
  show (Frac.minF f g).toRat = _
  rw [Frac.minF]
  split
  · rw [min_eq_left (hiff.mp (by assumption))]
  · rw [min_eq_right (le_of_not_le (fun hc => (by assumption : ¬ f.leB g = true) (hiff.mpr hc)))]

/-- A well-formed fraction has a nonnegative value. -/
theorem Frac.toRat_nonneg {f : Frac} (h : f.NN) : 0 ≤ f.toRat := by
  rw [Frac.toRat]
  have h1 : (0 : ℚ) ≤ (f.num : ℚ) := by exact_mod_cast h.1
  have h2 : (0 : ℚ) ≤ (f.den : ℚ) := by exact_mod_cast h.2.le
  positivity

/-- Well-formedness is preserved by addition. -/
theorem Frac.NN.add {f g : Frac} (hf : f.NN) (hg : g.NN) : (f + g).NN := by
  refine ⟨?_, ?_⟩
  · show 0 ≤ f.num * g.den + g.num * f.den
    have := mul_nonneg hf.1 hg.2.le
    have := mul_nonneg hg.1 hf.2.le
    omega
  · show 0 < f.den * g.den
    exact mul_pos hf.2 hg.2

/-- Well-formedness is preserved by multiplication. -/
theorem Frac.NN.mul {f g : Frac} (hf : f.NN) (hg : g.NN) : (f * g).NN :=
  ⟨mul_nonneg hf.1 hg.1, mul_pos hf.2 hg.2⟩

/-- Well-formedness is preserved by division by a fraction with
positive numerator and denominator. -/
theorem Frac.NN.div {f g : Frac} (hf : f.NN) (hgden : 0 < g.den) (hgnum : 0 < g.num) :
    (f / g).NN :=
  ⟨mul_nonneg hf.1 hgden.le, mul_pos hf.2 hgnum⟩

/-- Well-formedness is preserved by `min`. -/
theorem Frac.NN.minF {f g : Frac} (hf : f.NN) (hg : g.NN) : (min f g).NN := by
  show (Frac.minF f g).NN
  rw [Frac.minF]
  split
  · exact hf
  · exact hg

/-- Numeral fractions are well formed. -/
theorem Frac.NN_ofNat (n : Nat) : (OfNat.ofNat n : Frac).NN :=
  ⟨Int.natCast_nonneg n, one_pos⟩

/-- Cast counts are well formed. -/
theorem Frac.NN_natCast (n : Nat) : ((n : Frac)).NN :=
  ⟨Int.natCast_nonneg n, one_pos⟩

/-- For a positive denominator the structural floor is the floor of the
value. -/
theorem Frac.floorF_eq {f : Frac} (h : 0 < f.den) : f.floorF = ⌊f.toRat⌋ := by
  have hden : ((f.den.toNat : ℕ) : ℤ) = f.den := Int.toNat_of_nonneg h.le
  have hfl := Rat.floor_intCast_div_natCast f.num f.den.toNat
  rw [Frac.floorF, Frac.toRat]
  rw [← hden]
  rw [show (((f.den.toNat : ℕ) : ℤ) : ℚ) = ((f.den.toNat : ℕ) : ℚ) by push_cast; ring]
  rw [hfl]

/-- Free upgrade of the interval bound to a cast weight. -/
theorem ratio_term_bounds (m n : ℕ) (h : m ≤ n) (w : ℚ) (hw : 0 ≤ w) :
    0 ≤ (m : ℚ) / (n : ℚ) * w ∧ (m : ℚ) / (n : ℚ) * w ≤ w := by
  rcases Nat.eq_zero_or_pos n with h0 | hpos
  · subst h0
    have hm : m = 0 := Nat.le_zero.mp h
    subst hm
    simpa using hw
  · have hn : (0 : ℚ) < (n : ℚ) := by exact_mod_cast hpos
    have hr1 : (m : ℚ) / (n : ℚ) ≤ 1 := by
      rw [div_le_one hn]
      exact_mod_cast h
    refine ⟨by positivity, ?_⟩
    calc (m : ℚ) / (n : ℚ) * w ≤ 1 * w := mul_le_mul_of_nonneg_right hr1 hw
      _ = w := one_mul w

/-- The character split never returns the empty list. -/
theorem splitChars_ne_nil (p : Char → Bool) (l : List Char) : splitChars p l ≠ [] := by
  cases l with
  | nil => simp [splitChars]
  | cons c cs =>
    cases hr : splitChars p cs with
    | nil =>
      simp only [splitChars, hr]
      split <;> simp
    | cons w ws =>
      simp only [splitChars, hr]
      split <;> simp

/-- JS `split(' ')` never returns the empty array. -/
theorem jsSplitSpace_ne_nil (s : String) : jsSplitSpace s ≠ [] := by
  rw [jsSplitSpace]
  intro h
  exact splitChars_ne_nil _ _ (List.map_eq_nil.mp h)

/-- A matched-over-total word ratio times a cast weight is well formed
and bounded by the weight. -/
theorem ratioTimes_bounds (m n w : ℕ) (hmn : m ≤ n) (hn : 0 < n) :
    (((m : Frac) / (n : Frac)) * (w : Frac)).NN ∧
      (((m : Frac) / (n : Frac)) * (w : Frac)).toRat ≤ (w : ℚ) := by
  have hnum : (0 : ℤ) < ((n : Frac)).num := by
    rw [Frac.num_natCast]
    exact_mod_cast hn
  have hdiv : ((m : Frac) / (n : Frac)).NN :=
    Frac.NN.div (Frac.NN_natCast m) (Frac.NN_natCast n).2 hnum
  refine ⟨hdiv.mul (Frac.NN_natCast w), ?_⟩
  rw [Frac.toRat_mul hdiv.2 (Frac.NN_natCast w).2,
    Frac.toRat_div (Frac.NN_natCast m).2 (Frac.NN_natCast n).2,
    Frac.toRat_natCast, Frac.toRat_natCast, Frac.toRat_natCast]
  exact (ratio_term_bounds m n hmn (w : ℚ) (by positivity)).2

/-- The title part of the channel score is well formed and at most 30. -/
theorem titleRelevance_bounds (t k : String) :
    (titleRelevance t k).NN ∧ (titleRelevance t k).toRat ≤ 30 := by
  unfold titleRelevance
  split
  · exact ⟨Frac.NN_ofNat 30, by rw [Frac.toRat_ofNat]; norm_num⟩
  · have hn : 0 < (jsSplitSpace k).length := List.length_pos.mpr (jsSplitSpace_ne_nil k)
    have h := ratioTimes_bounds
      ((jsSplitSpace k).filter (fun word => strIncludes t word)).length
      (jsSplitSpace k).length 20 (List.length_filter_le _ _) hn
    exact ⟨h.1, h.2.trans (by norm_num)⟩

/-- The description part of the channel score is well formed and at
most 20. -/
theorem descriptionRelevance_bounds (d k : String) :
    (descriptionRelevance d k).NN ∧ (descriptionRelevance d k).toRat ≤ 20 := by
  unfold descriptionRelevance
  split
  · exact ⟨Frac.NN_ofNat 20, by rw [Frac.toRat_ofNat]; norm_num⟩
  · have hn : 0 < (jsSplitSpace k).length := List.length_pos.mpr (jsSplitSpace_ne_nil k)
    have h := ratioTimes_bounds
      ((jsSplitSpace k).filter (fun word => strIncludes d word)).length
      (jsSplitSpace k).length 15 (List.length_filter_le _ _) hn
    exact ⟨h.1, h.2.trans (by norm_num)⟩

/-- The recent-video part of the channel score is well formed and at
most 25. -/
theorem videoKeywordRelevance_bounds (videos : List RecentVideo) (k : String) :
    (videoKeywordRelevance videos k).NN ∧ (videoKeywordRelevance videos k).toRat ≤ 25 := by
  unfold videoKeywordRelevance
  have h8 : ((8 : Frac) * ((videos.filter
      (fun video => strIncludes (strLower video.title) k)).length : Frac)).NN :=
    (Frac.NN_ofNat 8).mul (Frac.NN_natCast _)
  refine ⟨(Frac.NN_ofNat 25).minF h8, ?_⟩
  rw [Frac.toRat_min (Frac.NN_ofNat 25).2 h8.2]
  have h25 := Frac.toRat_ofNat 25
  calc min (OfNat.ofNat 25 : Frac).toRat _ ≤ (OfNat.ofNat 25 : Frac).toRat := min_le_left _ _
    _ ≤ 25 := by rw [h25]; norm_num

/-- The subscriber tier bonus is well formed and at most 25. -/
theorem subscriberBonus_bounds (n : Nat) :
    (subscriberBonus n).NN ∧ (subscriberBonus n).toRat ≤ 25 := by
  unfold subscriberBonus
  split_ifs <;>
    refine ⟨Frac.NN_ofNat _, ?_⟩ <;> rw [Frac.toRat_ofNat] <;> norm_num

/-- Without an original topic the topic bonus contributes nothing. -/
theorem originalTopicBonus_none (t : String) (videos : List RecentVideo) :
    originalTopicBonus t videos none = 0 := rfl

/-- The numeral zero fraction is well formed with value zero. -/
theorem Frac.toRat_zero : (0 : Frac).toRat = 0 := by
  rw [Frac.toRat_ofNat]
  norm_num

/-- `Math.round` of a well-formed fraction of value at most 100 stays
in `[0, 100]`. -/
theorem jsRound_bounds {q : Frac} (hq : q.NN) (h1 : q.toRat ≤ 100) :
    0 ≤ jsRound q ∧ jsRound q ≤ 100 := by
  have hhalf : ({ num := 1, den := 2 } : Frac).NN := ⟨by norm_num, by norm_num⟩
  have hsum : (q + { num := 1, den := 2 }).NN := hq.add hhalf
  have htr : ({ num := 1, den := 2 } : Frac).toRat = 1 / 2 := by
    rw [Frac.toRat]
    norm_num
  rw [jsRound, Frac.floorF_eq hsum.2, Frac.toRat_add hq.2 hhalf.2, htr]
  have h0 := Frac.toRat_nonneg hq
  constructor
  · exact Int.floor_nonneg.mpr (by linarith)
  · have hle : ⌊q.toRat + 1 / 2⌋ ≤ ⌊(100 : ℚ) + 1 / 2⌋ := Int.floor_le_floor (by linarith)
    have h100 : ⌊(100 : ℚ) + 1 / 2⌋ = 100 := by
      rw [Int.floor_eq_iff]
      constructor <;> norm_num
    omega

/-- A quotient of numerals with positive divisor is well formed. -/
theorem Frac.NN_ofNat_div (a b : Nat) (hb : 0 < b) :
    ((OfNat.ofNat a : Frac) / (OfNat.ofNat b : Frac)).NN :=
  (Frac.NN_ofNat a).div (Frac.NN_ofNat b).2
    (by rw [Frac.num_ofNat]; exact_mod_cast hb)

/-- The weighted word-match part of the video score is well formed. -/
theorem videoMatchBase_NN (t k : String) : (videoMatchBase t k).NN := by
  unfold videoMatchBase
  have hden : (0 : ℤ) < (((max ((jsSplitSpace k).filter
      (fun word => word.length > 2)).length 1 : Nat) : Frac)).num := by
    rw [Frac.num_natCast]
    exact_mod_cast Nat.lt_of_lt_of_le Nat.zero_lt_one (Nat.le_max_right _ 1)
  exact (((Frac.NN_natCast _).div (Frac.NN_natCast _).2 hden).mul
      (Frac.NN_ofNat_div 8 10 (by norm_num))).add
    (((Frac.NN_natCast _).div (Frac.NN_natCast _).2 hden).mul
      (Frac.NN_ofNat_div 3 10 (by norm_num)))

/-- C3: for every channel title, description, keyword, subscriber count
and recent-video list, the relevance score computed without an
original-topic bonus lies in `[0, 100]`; and for every video title and
keyword, the value of the video relevance score lies in `[0, 1]`. -/
theorem relevance_scores_bounded :
    (∀ (title description keyword : String) (subs : Nat) (videos : List RecentVideo),
        0 ≤ calculateRelevanceScore title description keyword subs videos none ∧
          calculateRelevanceScore title description keyword subs videos none ≤ 100) ∧
    (∀ (videoTitle keyword : String),
        0 ≤ (calculateVideoRelevanceScore videoTitle keyword).toRat ∧
          (calculateVideoRelevanceScore videoTitle keyword).toRat ≤ 1) := by
  constructor
  · intro title description keyword subs videos
    have ht := titleRelevance_bounds (strLower title) (strLower keyword)
    have hd := descriptionRelevance_bounds (strLower description) (strLower keyword)
    have hv := videoKeywordRelevance_bounds videos (strLower keyword)
    have hs := subscriberBonus_bounds subs
    simp only [calculateRelevanceScore]
    rw [originalTopicBonus_none]
    have hNN : ((titleRelevance (strLower title) (strLower keyword)
        + descriptionRelevance (strLower description) (strLower keyword)
        + videoKeywordRelevance videos (strLower keyword)
        + subscriberBonus subs) + 0).NN :=
      (((ht.1.add hd.1).add hv.1).add hs.1).add (Frac.NN_ofNat 0)
    have hval : ((titleRelevance (strLower title) (strLower keyword)
        + descriptionRelevance (strLower description) (strLower keyword)
        + videoKeywordRelevance videos (strLower keyword)
        + subscriberBonus subs) + 0).toRat ≤ 100 := by
      rw [Frac.toRat_add (((ht.1.add hd.1).add hv.1).add hs.1).2 (Frac.NN_ofNat 0).2,
        Frac.toRat_add ((ht.1.add hd.1).add hv.1).2 hs.1.2,
        Frac.toRat_add (ht.1.add hd.1).2 hv.1.2,
        Frac.toRat_add ht.1.2 hd.1.2, Frac.toRat_zero]
      linarith [ht.2, hd.2, hv.2, hs.2]
    have hb := jsRound_bounds hNN hval
    exact ⟨le_min (by norm_num) hb.1, (min_le_right _ _).trans hb.2⟩
  · intro videoTitle keyword
    simp only [calculateVideoRelevanceScore]
    split
    · rw [Frac.toRat_ofNat]
      norm_num
    · have hw : (videoWordScore (strLower videoTitle) (strLower keyword)).NN := by
        have hbase := videoMatchBase_NN (strLower videoTitle) (strLower keyword)
        have h15 := Frac.NN_ofNat_div 15 100 (by norm_num)
        have h10 := Frac.NN_ofNat_div 1 10 (by norm_num)
        simp only [videoWordScore]
        split_ifs
        · exact (hbase.add h15).add h10
        · exact hbase.add h10
        · exact hbase.add h15
        · exact hbase
      refine ⟨?_, ?_⟩
      · have := Frac.toRat_nonneg ((Frac.NN_ofNat 1).minF hw)
        rw [Frac.toRat_min (Frac.NN_ofNat 1).2 hw.2] at this ⊢
        exact this
      · rw [Frac.toRat_min (Frac.NN_ofNat 1).2 hw.2]
        calc min (OfNat.ofNat 1 : Frac).toRat _ ≤ (OfNat.ofNat 1 : Frac).toRat :=
              min_le_left _ _
          _ ≤ 1 := by rw [Frac.toRat_ofNat]; norm_num

/-- Inserting into a list permutes consing onto it. -/
theorem jsInsertSorted_perm (cmp : α → α → Int) (x : α) (l : List α) :
    (jsInsertSorted cmp x l).Perm (x :: l) := by
  induction l with
  | nil => exact List.Perm.refl _
  | cons y ys ih =>
    unfold jsInsertSorted
    split
    · exact List.Perm.refl _
    · exact List.Perm.trans (List.Perm.cons y ih) (List.Perm.swap x y ys)

/-- The modelled JS sort permutes its input. -/
theorem jsSortBy_perm (cmp : α → α → Int) (l : List α) : (jsSortBy cmp l).Perm l := by
  induction l with
  | nil => exact List.Perm.refl _
  | cons x xs ih =>
    exact List.Perm.trans (jsInsertSorted_perm cmp x (jsSortBy cmp xs)) (List.Perm.cons x ih)

/-- The head of an insertion is the inserted element or the old head. -/
theorem jsInsertSorted_head (cmp : α → α → Int) (x : α) (l : List α) :
    (jsInsertSorted cmp x l).head? = some x ∨ (jsInsertSorted cmp x l).head? = l.head? := by
  cases l with
  | nil => left; rfl
  | cons y ys =>
    unfold jsInsertSorted
    split
    · left; rfl
    · right; rfl

/-- Inserting under an antisymmetric comparator preserves the
adjacent-pair ordering. -/
theorem jsInsertSorted_chain (cmp : α → α → Int)
    (hanti : ∀ a b, cmp a b = -(cmp b a)) (x : α) :
    ∀ l : List α, List.Chain' (fun a b => cmp a b ≤ 0) l →
      List.Chain' (fun a b => cmp a b ≤ 0) (jsInsertSorted cmp x l) := by
  intro l
  induction l with
  | nil => intro _; simp [jsInsertSorted]
  | cons y ys ih =>
    intro h
    unfold jsInsertSorted
    split
    · exact List.Chain'.cons (by assumption) h
    · have hyx : cmp y x ≤ 0 := by
        have := hanti x y
        omega
      rw [List.chain'_cons']
      refine ⟨?_, ih h.tail⟩
      intro b hb
      rcases jsInsertSorted_head cmp x ys with h9 | h9
      · rw [h9] at hb
        simp only [Option.mem_some_iff] at hb
        subst hb
        exact hyx
      · rw [h9] at hb
        exact (List.chain'_cons'.mp h).1 b hb

/-- Every adjacent pair of the modelled sort satisfies the comparator. -/
theorem jsSortBy_chain (cmp : α → α → Int) (hanti : ∀ a b, cmp a b = -(cmp b a))
    (l : List α) : List.Chain' (fun a b => cmp a b ≤ 0) (jsSortBy cmp l) := by
  induction l with
  | nil => simp [jsSortBy]
  | cons x xs ih => exact jsInsertSorted_chain cmp hanti x _ ih

/-- The final sort comparator is antisymmetric. -/
theorem channelCompare_antisymm (a b : InfluencerResult) :
    channelCompare a b = -(channelCompare b a) := by
  simp only [channelCompare]
  split_ifs <;> omega

/-- C8: for topic "Acme X200" and candidate keywords
["Acme X200 review", "routers", "Acme X200"], keyword prioritization
places both "Acme X200" and "Acme X200 review" strictly before
"routers". -/
theorem prioritizeKeywords_acme :
    List.indexOf "Acme X200"
        (prioritizeKeywords ["Acme X200 review", "routers", "Acme X200"] (some "Acme X200")) <
      List.indexOf "routers"
        (prioritizeKeywords ["Acme X200 review", "routers", "Acme X200"] (some "Acme X200")) ∧
    List.indexOf "Acme X200 review"
        (prioritizeKeywords ["Acme X200 review", "routers", "Acme X200"] (some "Acme X200")) <
      List.indexOf "routers"
        (prioritizeKeywords ["Acme X200 review", "routers", "Acme X200"] (some "Acme X200")) := by
  decide

/-- The cyclic scan of `switchToNextKey` succeeds whenever an active
key sits within its fuel window. -/
theorem scanNextActive_finds (keys : List YouTubeApiKey) (n : Nat) (hn : n = keys.length) :
    ∀ (fuel start : Nat), start < n →
      (∃ k, k < fuel ∧ ∃ key, keys[(start + k) % n]? = some key ∧
        key.status = KeyStatus.active) →
      ∃ j key, scanNextActive keys n start fuel = some j ∧ keys[j]? = some key ∧
        key.status = KeyStatus.active := by
  intro fuel
  induction fuel with
  | zero =>
    intro start hs hex
    obtain ⟨k, hk, _⟩ := hex
    omega
  | succ fuel ih =>
    intro start hs hex
    have hnpos : 0 < n := lt_of_le_of_lt (Nat.zero_le start) hs
    cases hxs : keys[start]? with
    | none =>
      exfalso
      have hlt : start < keys.length := hn ▸ hs
      rw [List.getElem?_eq_getElem hlt] at hxs
      exact Option.noConfusion hxs
    | some key0 =>
      by_cases hact : key0.status = KeyStatus.active
      · refine ⟨start, key0, ?_, hxs, hact⟩
        unfold scanNextActive
        rw [hxs]
        simp [hact]
      · obtain ⟨k, hk, key, hkey, hkeya⟩ := hex
        have hk0 : k ≠ 0 := by
          rintro rfl
          rw [Nat.add_zero, Nat.mod_eq_of_lt hs, hxs] at hkey
          obtain rfl : key0 = key := by injection hkey
          exact hact hkeya
        obtain ⟨k9, rfl⟩ := Nat.exists_eq_succ_of_ne_zero hk0
        have hs2 : (start + 1) % n < n := Nat.mod_lt _ hnpos
        have hidx : ((start + 1) % n + k9) % n = (start + (k9 + 1)) % n := by
          rw [Nat.mod_add_mod]
          congr 1
          omega
        have hex2 : ∃ k, k < fuel ∧ ∃ key, keys[((start + 1) % n + k) % n]? = some key ∧
            key.status = KeyStatus.active := by
          refine ⟨k9, by omega, key, ?_, hkeya⟩
          rw [hidx]
          exact hkey
        obtain ⟨j, key9, hscan, hj, hja⟩ := ih ((start + 1) % n) hs2 hex2
        refine ⟨j, key9, ?_, hj, hja⟩
        unfold scanNextActive
        rw [hxs]
        simp [hact, hscan]

/-- C5 (amended): `switchToNextKey` returns `false` exactly when at most
one credential of the whole pool has status active, regardless of which
one is current; otherwise it returns `true` and moves the cursor to an
index holding an active credential, found by one cyclic scan. -/
theorem switchToNextKey_spec (s : AppSettings) :
    ((switchToNextKey s).1 = false ↔
      (s.youtubeApiKeys.filter (fun k => k.status == KeyStatus.active)).length ≤ 1) ∧
    ((switchToNextKey s).1 = true →
      ∃ key, (switchToNextKey s).2.youtubeApiKeys[(switchToNextKey s).2.currentKeyIndex]? =
          some key ∧ key.status = KeyStatus.active) := by
  by_cases hguard : (s.youtubeApiKeys.filter (fun k => k.status == KeyStatus.active)).length ≤ 1
  · have hfalse : switchToNextKey s = (false, s) := by
      unfold switchToNextKey
      simp [hguard]
    rw [hfalse]
    refine ⟨by simpa using hguard, ?_⟩
    intro h
    simp at h
  · have hone : 0 < (s.youtubeApiKeys.filter (fun k => k.status == KeyStatus.active)).length := by
      omega
    obtain ⟨key, hkey⟩ := List.exists_mem_of_length_pos hone
    have hmem := List.mem_filter.mp hkey
    have hact : key.status = KeyStatus.active := by simpa using hmem.2
    obtain ⟨i, hi, hieq⟩ := List.mem_iff_getElem.mp hmem.1
    have hnpos : 0 < s.youtubeApiKeys.length := lt_of_le_of_lt (Nat.zero_le i) hi
    have hstart :
        (s.currentKeyIndex + 1) % s.youtubeApiKeys.length < s.youtubeApiKeys.length :=
      Nat.mod_lt _ hnpos
    have hcov : ∃ k, k < s.youtubeApiKeys.length ∧ ∃ key9,
        s.youtubeApiKeys[((s.currentKeyIndex + 1) % s.youtubeApiKeys.length + k) %
          s.youtubeApiKeys.length]? = some key9 ∧ key9.status = KeyStatus.active := by
      refine ⟨(s.youtubeApiKeys.length + i - (s.currentKeyIndex + 1) % s.youtubeApiKeys.length) %
          s.youtubeApiKeys.length, Nat.mod_lt _ hnpos, key, ?_, hact⟩
      have hidx : ((s.currentKeyIndex + 1) % s.youtubeApiKeys.length +
          (s.youtubeApiKeys.length + i - (s.currentKeyIndex + 1) % s.youtubeApiKeys.length) %
            s.youtubeApiKeys.length) % s.youtubeApiKeys.length = i := by
        rw [Nat.add_mod_mod]
        have hle : (s.currentKeyIndex + 1) % s.youtubeApiKeys.length ≤
            s.youtubeApiKeys.length + i := by omega
        rw [Nat.add_sub_cancel' hle, Nat.add_mod_left]
        exact Nat.mod_eq_of_lt hi
      rw [hidx, List.getElem?_eq_getElem hi, hieq]
    obtain ⟨j, key9, hscan, hj, hja⟩ := scanNextActive_finds s.youtubeApiKeys
      s.youtubeApiKeys.length rfl s.youtubeApiKeys.length
      ((s.currentKeyIndex + 1) % s.youtubeApiKeys.length) hstart hcov
    have htrue : switchToNextKey s = (true, { s with currentKeyIndex := j }) := by
      unfold switchToNextKey
      rw [if_neg hguard]
      simp only []
      rw [hscan]
    rw [htrue]
    refine ⟨⟨fun h => by simp at h, fun hle => absurd hle hguard⟩, ?_⟩
    intro _
    exact ⟨key9, by simpa using hj, hja⟩

/-- C5 (counterexample): with the current key exhausted and exactly one
other key active, an alternative active credential exists, yet
`switchToNextKey` returns `false` — the claimed equivalence fails. -/
theorem switchToNextKey_claim_counterexample :
    ¬ (((switchToNextKey exSettingsOneActive).1 = false) ↔
        hasOtherActive exSettingsOneActive = false) := by
  decide

/-- Witness for the amended C5 theorem at a pool with two active keys. -/
theorem switchToNextKey_spec_witness :
    ((switchToNextKey exSettingsTwoActive).1 = false ↔
      (exSettingsTwoActive.youtubeApiKeys.filter
        (fun k => k.status == KeyStatus.active)).length ≤ 1) ∧
    (∃ key,
      (switchToNextKey exSettingsTwoActive).2.youtubeApiKeys[
        (switchToNextKey exSettingsTwoActive).2.currentKeyIndex]? = some key ∧
      key.status = KeyStatus.active) :=
  ⟨(switchToNextKey_spec exSettingsTwoActive).1,
   (switchToNextKey_spec exSettingsTwoActive).2 (by decide)⟩

/-- A present key is bumped in place by the merge. -/
theorem mergeChannel_lookup (m : List (String × InfluencerResult)) (c : InfluencerResult)
    (r : InfluencerResult) (h : mapLookup m c.channelId = some r) :
    mapLookup (mergeChannel m c) c.channelId = some (bumpScore r) := by
  have hany : (m.any fun p => p.1 == c.channelId) = true := by
    induction m with
    | nil => simp [mapLookup] at h
    | cons p t ih =>
      cases hp : p.1 == c.channelId with
      | true => simp [hp]
      | false =>
        simp only [mapLookup, hp, Bool.false_eq_true, if_false] at h
        simp only [List.any_cons, hp, Bool.false_or]
        exact ih h
  unfold mergeChannel
  rw [if_pos hany]
  clear hany
  induction m with
  | nil => simp [mapLookup] at h
  | cons p t ih =>
    cases hp : p.1 == c.channelId with
    | true =>
      have h2 : p.2 = r := by
        simp only [mapLookup, hp, if_true] at h
        exact Option.some.inj h
      subst h2
      simp [mapLookup, hp]
    | false =>
      simp only [mapLookup, hp, Bool.false_eq_true, if_false] at h
      simp only [List.map_cons, hp, Bool.false_eq_true, if_false, mapLookup]
      exact ih h

/-- C6 (amended): when a candidate already in the merge map is
rediscovered, its stored score becomes `min 100 (old + 15)`: an
increment of exactly 15 while the old score is at most 85, clamped at
the 100-point cap applied at merge time; it never decreases a stored
score that was at most 100 (topic-boosted scores up to 120 do drop to
100). -/
theorem mergeChannel_bump_spec (m : List (String × InfluencerResult)) (c : InfluencerResult)
    (r : InfluencerResult) (h : mapLookup m c.channelId = some r) :
    mapLookup (mergeChannel m c) c.channelId = some (bumpScore r) ∧
    (bumpScore r).relevanceScore = min 100 (r.relevanceScore + 15) ∧
    (r.relevanceScore ≤ 85 → (bumpScore r).relevanceScore = r.relevanceScore + 15) ∧
    (r.relevanceScore ≤ 100 → r.relevanceScore ≤ (bumpScore r).relevanceScore) := by
  refine ⟨mergeChannel_lookup m c r h, rfl, ?_, ?_⟩
  · intro h85
    simp only [bumpScore]
    omega
  · intro h100
    simp only [bumpScore]
    omega

/-- C6 (counterexample): a channel whose score reached the 120-point
cap (computed by the source's own scoring function) is rediscovered;
the merge stores `min 100 (120 + 15) = 100`, a decrease of 20 — not an
increment of between 10 and 15 points, and the accumulated value cannot
exceed 100 after a merge update. -/
theorem mergeChannel_claim_counterexample :
    exChannel120.relevanceScore = 120 ∧
    mapLookup (mergeChannel [("UC1", exChannel120)] exChannel120) "UC1" =
      some (bumpScore exChannel120) ∧
    (bumpScore exChannel120).relevanceScore = 100 ∧
    (bumpScore exChannel120).relevanceScore < exChannel120.relevanceScore := by
  decide

/-- Witness for the amended C6 theorem at a concrete one-entry map. -/
theorem mergeChannel_bump_spec_witness :
    (mapLookup [("UC1", exChannel120)] exChannel120.channelId = some exChannel120) ∧
    mapLookup (mergeChannel [("UC1", exChannel120)] exChannel120) exChannel120.channelId =
      some (bumpScore exChannel120) :=
  ⟨by decide,
   (mergeChannel_bump_spec [("UC1", exChannel120)] exChannel120 exChannel120 (by decide)).1⟩

/-- C1: with every platform request failing with HTTP 403 (the
invalid-credential classification), `searchInfluencers` issues the five
variant search requests and then returns the empty list as a success
(`Except.ok []`); no typed error reaches the caller, because
`searchByKeyword` catches the errors it built and returns `[]`. -/
theorem searchInfluencers_invalidCredential_empty_success :
    (searchInfluencers "key" ["kw"] exFilters none invalidCredentialPlatform [] 0).1 =
      Except.ok [] ∧
    (searchInfluencers "key" ["kw"] exFilters none invalidCredentialPlatform [] 0).2.2 = 5 :=
  ⟨rfl, rfl⟩

/-- One merge step preserves the map invariant. -/
theorem mergeChannel_inv (m : List (String × InfluencerResult)) (c : InfluencerResult)
    (h : mergeInv m) : mergeInv (mergeChannel m c) := by
  unfold mergeChannel
  split
  · constructor
    · have hkeys : (m.map (fun p => if p.1 == c.channelId then (p.1, bumpScore p.2) else p)).map
          Prod.fst = m.map Prod.fst := by
        rw [List.map_map]
        apply List.map_congr_left
        intro p _
        by_cases hpc : (p.1 == c.channelId) = true
        · simp [Function.comp, hpc]
        · simp [Function.comp, hpc]
      rw [hkeys]
      exact h.1
    · intro p hp
      rcases List.mem_map.mp hp with ⟨q, hq, rfl⟩
      by_cases hqc : (q.1 == c.channelId) = true
      · rw [if_pos hqc]
        exact h.2 q hq
      · rw [if_neg hqc]
        exact h.2 q hq
  · rename_i hany
    have hnotin : c.channelId ∉ m.map Prod.fst := by
      intro hmem
      rcases List.mem_map.mp hmem with ⟨q, hq, hqe⟩
      exact hany (List.any_eq_true.mpr ⟨q, hq, beq_iff_eq.mpr hqe⟩)
    constructor
    · rw [List.map_append]
      refine h.1.append (List.nodup_singleton _) ?_
      intro a ha hb
      rw [List.map_singleton, List.mem_singleton] at hb
      subst hb
      exact hnotin ha
    · intro p hp
      rcases List.mem_append.mp hp with h1 | h2
      · exact h.2 p h1
      · have h3 := List.mem_singleton.mp h2
        subst h3
        rfl

/-- Folding merges over any channel list preserves the map invariant. -/
theorem foldl_mergeChannel_inv (cs : List InfluencerResult)
    (m : List (String × InfluencerResult)) (h : mergeInv m) :
    mergeInv (List.foldl mergeChannel m cs) := by
  induction cs generalizing m with
  | nil => exact h
  | cons c cs ih => exact ih _ (mergeChannel_inv m c h)

/-- A merge step preserves any value property that survives the score
bump, provided the inserted channel has it. -/
theorem mergeChannel_valProp (P : InfluencerResult → Prop)
    (hb : ∀ r, P r → P (bumpScore r)) (m : List (String × InfluencerResult))
    (c : InfluencerResult) (hm : ∀ p ∈ m, P p.2) (hc : P c) :
    ∀ p ∈ mergeChannel m c, P p.2 := by
  unfold mergeChannel
  split
  · intro p hp
    rcases List.mem_map.mp hp with ⟨q, hq, rfl⟩
    by_cases hqc : (q.1 == c.channelId) = true
    · rw [if_pos hqc]
      exact hb _ (hm q hq)
    · rw [if_neg hqc]
      exact hm q hq
  · intro p hp
    rcases List.mem_append.mp hp with h1 | h2
    · exact hm p h1
    · have h3 := List.mem_singleton.mp h2
      subst h3
      exact hc

/-- Folding merges preserves a bump-stable value property. -/
theorem foldl_mergeChannel_valProp (P : InfluencerResult → Prop)
    (hb : ∀ r, P r → P (bumpScore r)) (cs : List InfluencerResult)
    (m : List (String × InfluencerResult)) (hm : ∀ p ∈ m, P p.2)
    (hcs : ∀ c ∈ cs, P c) : ∀ p ∈ List.foldl mergeChannel m cs, P p.2 := by
  induction cs generalizing m with
  | nil => exact hm
  | cons c cs ih =>
    exact ih _ (mergeChannel_valProp P hb m c hm (hcs c (List.mem_cons_self c cs)))
      (fun c2 h2 => hcs c2 (List.mem_cons_of_mem c h2))

/-- An invariant preserved by each step survives a fold. -/
theorem foldl_preserve {α β : Type} (f : β → α → β) (Inv : β → Prop)
    (hf : ∀ b a, Inv b → Inv (f b a)) :
    ∀ (l : List α) (b : β), Inv b → Inv (List.foldl f b l) := by
  intro l
  induction l with
  | nil => intro b hb; exact hb
  | cons a l ih => intro b hb; exact ih _ (hf b a hb)

/-- Every channel a query variant yields went through `processChannel`. -/
theorem searchByKeyword_mem (q region : String) (mr : Nat) (topic : Option String)
    (d : VariantData) (r : InfluencerResult)
    (h : r ∈ (searchByKeyword q region mr topic d).1) :
    ∃ ch vids, processChannel ch q topic vids = some r := by
  unfold searchByKeyword at h
  rcases d with ⟨so, co, tv⟩
  cases so with
  | httpError s => simp at h
  | ok items =>
    cases items with
    | none => simp at h
    | some its =>
      dsimp at h
      split at h
      · simp at h
      · cases co with
        | httpError s => simp at h
        | ok items2 =>
          cases items2 with
          | none => simp at h
          | some chans =>
            dsimp at h
            rcases List.mem_filterMap.mp h with ⟨ch, _, hpc⟩
            exact ⟨ch, tv ch.id, hpc⟩

/-- A processed channel always carries at least 100 subscribers: the
sub-100 guard of `processChannel` discards it before anything else
sees it. -/
theorem processChannel_subscriberCount (ch : RawChannel) (kw : String)
    (topic : Option String) (vids : List RecentVideo) (r : InfluencerResult)
    (h : processChannel ch kw topic vids = some r) : 100 ≤ r.subscriberCount := by
  unfold processChannel at h
  rcases ch with ⟨cid, sn, st⟩
  cases sn with
  | none => simp at h
  | some snippet =>
    cases st with
    | none => simp at h
    | some statistics =>
      dsimp at h
      split at h
      · simp at h
      · rename_i hlt
        have h2 := Option.some.inj h
        rw [← h2]
        dsimp
        omega

/-- Master invariant of the fan-out/merge loop: the accumulated map
satisfies the key invariant, and every stored record has any bump-stable
property enjoyed by all channels the variants return. -/
theorem runVariants_inv (region : String) (maxResults : Nat) (topic : Option String)
    (platform : String → VariantData) (P : InfluencerResult → Prop)
    (hb : ∀ r, P r → P (bumpScore r))
    (hsrc : ∀ q r, r ∈ (searchByKeyword q region (min 10 maxResults) topic (platform q)).1 → P r)
    (keywords : List String) :
    mergeInv (runVariants region maxResults topic platform keywords).1 ∧
      ∀ p ∈ (runVariants region maxResults topic platform keywords).1, P p.2 := by
  unfold runVariants
  refine foldl_preserve
    (fun acc keyword =>
      List.foldl (fun acc2 searchQuery =>
          let r := searchByKeyword searchQuery region (min 10 maxResults) topic
            (platform searchQuery)
          (List.foldl mergeChannel acc2.1 r.1, acc2.2 + r.2))
        acc (searchModes keyword))
    (fun acc => mergeInv acc.1 ∧ ∀ p ∈ acc.1, P p.2) ?_ keywords ([], 0)
    ⟨⟨by simp, by simp⟩, by simp⟩
  intro b a hb2
  refine foldl_preserve
    (fun acc2 searchQuery =>
      let r := searchByKeyword searchQuery region (min 10 maxResults) topic
        (platform searchQuery)
      (List.foldl mergeChannel acc2.1 r.1, acc2.2 + r.2))
    (fun acc => mergeInv acc.1 ∧ ∀ p ∈ acc.1, P p.2) ?_ (searchModes a) b hb2
  intro b2 q hb3
  exact ⟨foldl_mergeChannel_inv _ _ hb3.1,
    foldl_mergeChannel_valProp P hb _ _ hb3.2 (fun c hc => hsrc q c hc)⟩

/-- The ids of the stored records are exactly the (pairwise distinct)
map keys. -/
theorem values_ids_nodup (m : List (String × InfluencerResult)) (h : mergeInv m) :
    ((m.map (fun p => p.2)).map (fun r => r.channelId)).Nodup := by
  rw [List.map_map]
  have hmap : List.map ((fun r => r.channelId) ∘ fun p => p.2) m = List.map Prod.fst m :=
    List.map_congr_left (fun p hp => h.2 p hp)
  rw [hmap]
  exact h.1

/-- Distinct ids survive the filter, sort and truncation stages. -/
theorem nodup_ids_after_stages (l : List InfluencerResult)
    (h : (l.map (fun r => r.channelId)).Nodup) (ms mv mr : Nat) :
    (((jsSortBy channelCompare (filterChannels ms mv l)).take mr).map
      (fun r => r.channelId)).Nodup := by
  have h1 : (filterChannels ms mv l).Sublist l := List.filter_sublist _
  have h2 : ((filterChannels ms mv l).map (fun r => r.channelId)).Nodup :=
    h.sublist (h1.map _)
  have h3 : ((jsSortBy channelCompare (filterChannels ms mv l)).map
      (fun r => r.channelId)).Nodup :=
    (((jsSortBy_perm channelCompare (filterChannels ms mv l)).map _).nodup_iff).mpr h2
  exact h3.sublist ((List.take_sublist mr _).map _)

/-- On a cache miss the returned list is the sorted, truncated filter of
the merged candidate values. -/
theorem searchResultsOk_eq (apiKey : String) (keywords : List String)
    (filters : SearchFiltersIn) (topic : Option String)
    (platform : String → VariantData) (cache : List (CacheKey × CacheEntry)) (now : Nat)
    (hmiss : getFromCache cache (searchCacheKey apiKey keywords filters) now = none) :
    searchResultsOk apiKey keywords filters topic platform cache now =
      (jsSortBy channelCompare (filterChannels (filters.minSubscribers.getD 1000)
        (filters.minViews.getD 10000)
        ((runVariants (filters.region.getD "US") (filters.maxResults.getD 50) topic platform
          ((prioritizeKeywords keywords topic).take 1)).1.map (fun p => p.2)))).take
        (filters.maxResults.getD 50) := by
  unfold searchResultsOk searchInfluencers
  simp only [hmiss]

/-- C2: on a fresh search (cache miss for its key), no two entries of
the returned candidate list share a `channelId`: the merge accumulates
candidates in a map keyed by that id. -/
theorem searchInfluencers_results_dedup (apiKey : String) (keywords : List String)
    (filters : SearchFiltersIn) (topic : Option String) (platform : String → VariantData)
    (cache : List (CacheKey × CacheEntry)) (now : Nat)
    (hmiss : getFromCache cache (searchCacheKey apiKey keywords filters) now = none) :
    ((searchResultsOk apiKey keywords filters topic platform cache now).map
      (fun r => r.channelId)).Nodup := by
  rw [searchResultsOk_eq apiKey keywords filters topic platform cache now hmiss]
  refine nodup_ids_after_stages _ ?_ _ _ _
  exact values_ids_nodup _
    (runVariants_inv (filters.region.getD "US") (filters.maxResults.getD 50) topic platform
      (fun _ => True) (fun _ _ => trivial) (fun _ _ _ => trivial)
      ((prioritizeKeywords keywords topic).take 1)).1

/-- Witness for C2 at a concrete run with three distinct channels. -/
theorem searchInfluencers_results_dedup_witness :
    getFromCache [] (searchCacheKey "key" ["a b c"] exFilters) 0 = none ∧
    ((searchResultsOk "key" ["a b c"] exFilters none exPlatform [] 0).map
      (fun r => r.channelId)).Nodup :=
  ⟨rfl, searchInfluencers_results_dedup "key" ["a b c"] exFilters none exPlatform [] 0 rfl⟩

/-- C9: on a fresh search, every returned channel meets the subscriber
threshold, and a channel with recent videos is returned only when some
of its videos meets the view threshold (the filter step dropped every
candidate below the thresholds). -/
theorem searchInfluencers_filters_respected (apiKey : String) (keywords : List String)
    (filters : SearchFiltersIn) (topic : Option String) (platform : String → VariantData)
    (cache : List (CacheKey × CacheEntry)) (now : Nat) (r : InfluencerResult)
    (hmiss : getFromCache cache (searchCacheKey apiKey keywords filters) now = none)
    (hr : r ∈ searchResultsOk apiKey keywords filters topic platform cache now) :
    filters.minSubscribers.getD 1000 ≤ r.subscriberCount ∧
      (r.recentVideos ≠ [] → ∃ v ∈ r.recentVideos, filters.minViews.getD 10000 ≤ v.viewCount) := by
  rw [searchResultsOk_eq apiKey keywords filters topic platform cache now hmiss] at hr
  have hr2 := List.mem_of_mem_take hr
  have hr3 := (jsSortBy_perm channelCompare _).mem_iff.mp hr2
  unfold filterChannels at hr3
  obtain ⟨_, hcond⟩ := List.mem_filter.mp hr3
  simp only [Bool.and_eq_true, decide_eq_true_eq, Bool.or_eq_true, List.isEmpty_iff,
    List.any_eq_true] at hcond
  obtain ⟨hsubs, hviews⟩ := hcond
  refine ⟨hsubs, fun hne => ?_⟩
  rcases hviews with he | ⟨v, hv, hvc⟩
  · exact absurd he hne
  · exact ⟨v, hv, hvc⟩

/-- Witness for C9 at a concrete run: the top result meets the default
thresholds. -/
theorem searchInfluencers_filters_respected_witness :
    getFromCache [] (searchCacheKey "key" ["a b c"] exFilters) 0 = none ∧
    exResultA ∈ searchResultsOk "key" ["a b c"] exFilters none exPlatform [] 0 ∧
    (exFilters.minSubscribers.getD 1000 ≤ exResultA.subscriberCount ∧
      (exResultA.recentVideos ≠ [] →
        ∃ v ∈ exResultA.recentVideos, exFilters.minViews.getD 10000 ≤ v.viewCount)) :=
  ⟨rfl, by decide,
   searchInfluencers_filters_respected "key" ["a b c"] exFilters none exPlatform [] 0
     exResultA rfl (by decide)⟩

/-- C10: on a fresh search, a channel with fewer than 100 subscribers
never reaches the returned list, whatever `minSubscribers` the caller
chose: `processChannel` returns `null` for it before the threshold
filter runs. -/
theorem searchInfluencers_min100 (apiKey : String) (keywords : List String)
    (filters : SearchFiltersIn) (topic : Option String) (platform : String → VariantData)
    (cache : List (CacheKey × CacheEntry)) (now : Nat) (r : InfluencerResult)
    (hmiss : getFromCache cache (searchCacheKey apiKey keywords filters) now = none)
    (hr : r ∈ searchResultsOk apiKey keywords filters topic platform cache now) :
    100 ≤ r.subscriberCount := by
  rw [searchResultsOk_eq apiKey keywords filters topic platform cache now hmiss] at hr
  have hr2 := List.mem_of_mem_take hr
  have hr3 := (jsSortBy_perm channelCompare _).mem_iff.mp hr2
  unfold filterChannels at hr3
  have hr4 := (List.mem_filter.mp hr3).1
  rcases List.mem_map.mp hr4 with ⟨p, hp, rfl⟩
  refine (runVariants_inv (filters.region.getD "US") (filters.maxResults.getD 50) topic
    platform (fun c => 100 ≤ c.subscriberCount) (fun _ h => h) ?_
    ((prioritizeKeywords keywords topic).take 1)).2 p hp
  intro q c hc
  rcases searchByKeyword_mem q (filters.region.getD "US")
    (min 10 (filters.maxResults.getD 50)) topic (platform q) c hc with ⟨ch, vids, hpc⟩
  exact processChannel_subscriberCount ch q topic vids c hpc

/-- Witness for C10 at a concrete run. -/
theorem searchInfluencers_min100_witness :
    getFromCache [] (searchCacheKey "key" ["a b c"] exFilters) 0 = none ∧
    exResultA ∈ searchResultsOk "key" ["a b c"] exFilters none exPlatform [] 0 ∧
    100 ≤ exResultA.subscriberCount :=
  ⟨rfl, by decide,
   searchInfluencers_min100 "key" ["a b c"] exFilters none exPlatform [] 0 exResultA rfl
     (by decide)⟩

/-- Inserting an element at any split point is enumerated by
`insertEverywhere`. -/
theorem mem_insertEverywhere (x : α) (l1 l2 : List α) :
    (l1 ++ x :: l2) ∈ insertEverywhere x (l1 ++ l2) := by
  induction l1 with
  | nil =>
    cases l2 with
    | nil => simp [insertEverywhere]
    | cons y ys => simp [insertEverywhere]
  | cons y l1 ih =>
    simp only [List.cons_append, insertEverywhere]
    exact List.mem_cons_of_mem _ (List.mem_map.mpr ⟨l1 ++ x :: l2, ih, rfl⟩)

/-- `allPerms` enumerates every permutation of its argument. -/
theorem allPerms_complete : ∀ (r l : List α), l.Perm r → l ∈ allPerms r := by
  intro r
  induction r with
  | nil =>
    intro l hl
    rw [hl.eq_nil]
    simp [allPerms]
  | cons x xs ih =>
    intro l hl
    have hx : x ∈ l := hl.mem_iff.mpr (List.mem_cons_self x xs)
    obtain ⟨l1, l2, rfl⟩ := List.append_of_mem hx
    have h2 : (l1 ++ l2).Perm xs := (List.perm_middle.symm.trans hl).cons_inv
    simp only [allPerms]
    rw [List.mem_join]
    exact ⟨insertEverywhere x (l1 ++ l2),
      List.mem_map.mpr ⟨l1 ++ l2, ih (l1 ++ l2) h2, rfl⟩, mem_insertEverywhere x l1 l2⟩

/-- C7 (counterexample): a concrete fresh run yields three candidates
whose pairwise ordering constraints are cyclic, so the returned list
violates the claimed all-pairs ordering — and so does every other
permutation of it (via `allPerms_complete`, no ordering the sort could
emit satisfies the claim). -/
theorem searchResults_ordering_counterexample :
    specOrderingOK (searchResultsOk "key" ["a b c"] exFilters none exPlatform [] 0) = false ∧
    ((allPerms (searchResultsOk "key" ["a b c"] exFilters none exPlatform [] 0)).all
      (fun l => !(specOrderingOK l))) = true := by
  exact ⟨by decide, by decide⟩

/-- C7 (amended): on a fresh search the returned list is the filtered
candidate set sorted by the comparator (score descending; pairs less
than 5 points apart by subscriber count descending) and truncated to
`maxResults`: the sort is a permutation of the filtered set, every
adjacent pair of the output satisfies the comparator, and the length is
at most `maxResults`. Because the comparator is not transitive, the
all-pairs ordering of the original claim does not hold in general. -/
theorem searchInfluencers_sort_truncate (apiKey : String) (keywords : List String)
    (filters : SearchFiltersIn) (topic : Option String) (platform : String → VariantData)
    (cache : List (CacheKey × CacheEntry)) (now : Nat)
    (hmiss : getFromCache cache (searchCacheKey apiKey keywords filters) now = none) :
    searchResultsOk apiKey keywords filters topic platform cache now =
      (jsSortBy channelCompare (filterChannels (filters.minSubscribers.getD 1000)
        (filters.minViews.getD 10000)
        ((runVariants (filters.region.getD "US") (filters.maxResults.getD 50) topic platform
          ((prioritizeKeywords keywords topic).take 1)).1.map (fun p => p.2)))).take
        (filters.maxResults.getD 50) ∧
    (jsSortBy channelCompare (filterChannels (filters.minSubscribers.getD 1000)
        (filters.minViews.getD 10000)
        ((runVariants (filters.region.getD "US") (filters.maxResults.getD 50) topic platform
          ((prioritizeKeywords keywords topic).take 1)).1.map (fun p => p.2)))).Perm
      (filterChannels (filters.minSubscribers.getD 1000) (filters.minViews.getD 10000)
        ((runVariants (filters.region.getD "US") (filters.maxResults.getD 50) topic platform
          ((prioritizeKeywords keywords topic).take 1)).1.map (fun p => p.2))) ∧
    List.Chain' (fun a b => channelCompare a b ≤ 0)
      (searchResultsOk apiKey keywords filters topic platform cache now) ∧
    (searchResultsOk apiKey keywords filters topic platform cache now).length ≤
      filters.maxResults.getD 50 := by
  have hEq := searchResultsOk_eq apiKey keywords filters topic platform cache now hmiss
  refine ⟨hEq, jsSortBy_perm _ _, ?_, ?_⟩
  · rw [hEq]
    exact (jsSortBy_chain channelCompare channelCompare_antisymm _).take _
  · rw [hEq]
    exact List.length_take_le _ _

/-- Witness for the amended C7 theorem at a concrete fresh run. -/
theorem searchInfluencers_sort_truncate_witness :
    getFromCache [] (searchCacheKey "key" ["a b c"] exFilters) 0 = none ∧
    List.Chain' (fun a b => channelCompare a b ≤ 0)
      (searchResultsOk "key" ["a b c"] exFilters none exPlatform [] 0) ∧
    (searchResultsOk "key" ["a b c"] exFilters none exPlatform [] 0).length ≤
      exFilters.maxResults.getD 50 :=
  ⟨rfl,
   (searchInfluencers_sort_truncate "key" ["a b c"] exFilters none exPlatform [] 0 rfl).2.2.1,
   (searchInfluencers_sort_truncate "key" ["a b c"] exFilters none exPlatform [] 0 rfl).2.2.2⟩

/-- A freshly stored entry is a cache hit for the stored data while the
read time is within the expiry. -/
theorem getFromCache_setCache (cache : List (CacheKey × CacheEntry)) (key : CacheKey)
    (data : List InfluencerResult) (ttl now t : Nat) (h : t ≤ now + ttl) :
    getFromCache (setCache cache key data ttl now) key t = some data := by
  unfold getFromCache setCache
  rw [List.lookup]
  simp only [beq_self_eq_true]
  rw [if_neg (by omega)]

/-- A cache hit returns the stored payload unchanged with no upstream
requests. -/
theorem searchInfluencers_hit (apiKey : String) (keywords : List String)
    (filters : SearchFiltersIn) (topic : Option String) (platform : String → VariantData)
    (cache : List (CacheKey × CacheEntry)) (now : Nat) (data : List InfluencerResult)
    (hhit : getFromCache cache (searchCacheKey apiKey keywords filters) now = some data) :
    searchInfluencers apiKey keywords filters topic platform cache now =
      (Except.ok data, cache, 0) := by
  unfold searchInfluencers
  simp only [hhit]

/-- A cache miss runs the pipeline and stores the result under the
derived key with a 30-minute TTL. -/
theorem searchInfluencers_miss (apiKey : String) (keywords : List String)
    (filters : SearchFiltersIn) (topic : Option String) (platform : String → VariantData)
    (cache : List (CacheKey × CacheEntry)) (now : Nat)
    (hmiss : getFromCache cache (searchCacheKey apiKey keywords filters) now = none) :
    searchInfluencers apiKey keywords filters topic platform cache now =
      (Except.ok ((jsSortBy channelCompare (filterChannels (filters.minSubscribers.getD 1000)
          (filters.minViews.getD 10000)
          ((runVariants (filters.region.getD "US") (filters.maxResults.getD 50) topic platform
            ((prioritizeKeywords keywords topic).take 1)).1.map (fun p => p.2)))).take
          (filters.maxResults.getD 50)),
        setCache cache (searchCacheKey apiKey keywords filters)
          ((jsSortBy channelCompare (filterChannels (filters.minSubscribers.getD 1000)
            (filters.minViews.getD 10000)
            ((runVariants (filters.region.getD "US") (filters.maxResults.getD 50) topic platform
              ((prioritizeKeywords keywords topic).take 1)).1.map (fun p => p.2)))).take
            (filters.maxResults.getD 50)) (30 * 60 * 1000) now,
        (runVariants (filters.region.getD "US") (filters.maxResults.getD 50) topic platform
          ((prioritizeKeywords keywords topic).take 1)).2) := by
  unfold searchInfluencers
  simp only [hmiss]

/-- C4: a second `searchInfluencers` call with the same keywords,
filters and api key, against the cache state the first call produced,
within 30 minutes of the first call, returns exactly the first call's
result list, leaves the cache unchanged and performs zero upstream
requests — whatever the platform would now answer. -/
theorem searchInfluencers_cache_ttl (apiKey : String) (keywords : List String)
    (filters : SearchFiltersIn) (topic : Option String)
    (platform platform2 : String → VariantData) (cache : List (CacheKey × CacheEntry))
    (now t2 : Nat)
    (hmiss : getFromCache cache (searchCacheKey apiKey keywords filters) now = none)
    (ht : t2 ≤ now + 30 * 60 * 1000) :
    searchInfluencers apiKey keywords filters topic platform2
        (searchInfluencers apiKey keywords filters topic platform cache now).2.1 t2 =
      ((searchInfluencers apiKey keywords filters topic platform cache now).1,
        (searchInfluencers apiKey keywords filters topic platform cache now).2.1, 0) := by
  rw [searchInfluencers_miss apiKey keywords filters topic platform cache now hmiss]
  exact searchInfluencers_hit apiKey keywords filters topic platform2 _ t2 _
    (getFromCache_setCache cache (searchCacheKey apiKey keywords filters) _
      (30 * 60 * 1000) now t2 ht)

/-- Witness for C4 at a concrete fresh run repeated at the same
instant. -/
theorem searchInfluencers_cache_ttl_witness :
    getFromCache [] (searchCacheKey "key" ["a b c"] exFilters) 0 = none ∧
    (0 : Nat) ≤ 0 + 30 * 60 * 1000 ∧
    searchInfluencers "key" ["a b c"] exFilters none exPlatform
        (searchInfluencers "key" ["a b c"] exFilters none exPlatform [] 0).2.1 0 =
      ((searchInfluencers "key" ["a b c"] exFilters none exPlatform [] 0).1,
        (searchInfluencers "key" ["a b c"] exFilters none exPlatform [] 0).2.1, 0) :=
  ⟨rfl, by norm_num,
   searchInfluencers_cache_ttl "key" ["a b c"] exFilters none exPlatform exPlatform [] 0 0
     rfl (by norm_num)⟩

end YTFinder
